import Mathlib

namespace Splink

/-- Errors raised by the Python runtime when executing the embedded code paths.
`unboundLocalError` models reading a local variable that no branch assigned. -/
inductive PyError where
  | attributeError
  | valueError
  | typeError
  | indexError
  | unboundLocalError
  deriving DecidableEq, Repr

/-! ## Blocking SQL generation (`splink/blocking.py`) -/

/-- `sql_gen_comparison_columns`: renames columns and sets them aside each
other for comparisons, e.g. `["name", "dob"] ↦ "l.name as name_l, r.name as name_r, ..."`. -/
def sql_gen_comparison_columns (columns : List String) : String :=
  let both := columns.map (fun c => [s!"l.{c} as {c}_l", s!"r.{c} as {c}_r"])
  String.intercalate ", " both.flatten

/-- `_sql_gen_and_not_previous_rules`: for a non-empty list of previous blocking
rules, wraps each in `ifnull((rule), false)`, joins with ` OR ` and negates;
for an empty list returns the empty string. -/
def _sql_gen_and_not_previous_rules (previous_rules : List String) : String :=
  if previous_rules.isEmpty then ""
  else
    let or_clauses := previous_rules.map (fun r => s!"ifnull(({r}), false)")
    let joined := String.intercalate " OR " or_clauses
    s!"AND NOT ({joined})"

/-- `_sql_gen_composite_unique_id`: the composite id expression
`concat(x.source_dataset, '-__-',x.unique_id)` for `x ∈ {l, r}`. -/
def _sql_gen_composite_unique_id (source_dataset_colname unique_id_colname l_or_r : String) : String :=
  s!"concat({l_or_r}.{source_dataset_colname}, '-__-',{l_or_r}.{unique_id_colname})"

/-- The ordering constraint `where composite_id(l) < composite_id(r)`. -/
def orderingWhereClause (source_dataset_col unique_id_col : String) : String :=
  let id_expr_l := _sql_gen_composite_unique_id source_dataset_col unique_id_col "l"
  let id_expr_r := _sql_gen_composite_unique_id source_dataset_col unique_id_col "r"
  s!"where {id_expr_l} < {id_expr_r}"

/-- `_sql_gen_where_condition`: the pair-ordering where-clause. The source
assigns `where_condition` only in the `link_and_dedupe` and `link_only`
branches; any other link type (including `dedupe_only`) reaches the `return`
with the local unassigned, which raises `UnboundLocalError` in Python. -/
def _sql_gen_where_condition (link_type source_dataset_col unique_id_col : String) :
    Except PyError String :=
  let id_expr_l := _sql_gen_composite_unique_id source_dataset_col unique_id_col "l"
  let id_expr_r := _sql_gen_composite_unique_id source_dataset_col unique_id_col "r"
  if link_type = "link_and_dedupe" then
    .ok (orderingWhereClause source_dataset_col unique_id_col)
  else if link_type = "link_only" then
    .ok s!"where {id_expr_l} < {id_expr_r} and l.{source_dataset_col} != r.{source_dataset_col}"
  else
    .error .unboundLocalError

/-! ## Three-valued SQL boolean semantics

SQL booleans are three-valued: `some true`, `some false`, or `none` (NULL).
These operators are the standard SQL (Kleene) semantics used to interpret the
predicates appearing in the generated blocking SQL. -/

/-- A SQL boolean value; `none` is SQL `NULL`. -/
abbrev SqlBool := Option Bool

/-- SQL `NOT`: `NULL` stays `NULL`. -/
def sqlNot : SqlBool → SqlBool
  | none => none
  | some b => some (!b)

/-- SQL `OR` (Kleene): true dominates, otherwise `NULL` dominates false. -/
def sqlOr : SqlBool → SqlBool → SqlBool
  | some true, _ => some true
  | _, some true => some true
  | none, _ => none
  | _, none => none
  | some false, some false => some false

/-- SQL `ifnull(b, false)`: replaces `NULL` by `false`. -/
def ifnullFalse (b : SqlBool) : SqlBool := some (b.getD false)

/-- Denotation of the clause generated by `_sql_gen_and_not_previous_rules`,
given the values of the previous rules' predicates at one candidate pair:
the empty clause restricts nothing; otherwise it is
`NOT (ifnull(v0, false) OR ... OR ifnull(vn, false))`. -/
def notPreviousDenotation (vals : List SqlBool) : SqlBool :=
  if vals.isEmpty then some true
  else sqlNot (vals.foldr (fun v acc => sqlOr (ifnullFalse v) acc) (some false))

/-! ## Full blocking statement (`_sql_gen_block_using_rules`) -/

/-- One branch of the union generated by `_sql_gen_block_using_rules`: the
body of the f-string in the source's loop (whitespace normalised to single
newlines). -/
def selectSql (sql_select_expr match_key table_name rule not_previous where_condition : String) :
    String :=
  s!"\nselect\n{sql_select_expr},\n'{match_key}' as match_key\nfrom {table_name} as l\ninner join {table_name} as r\non\n{rule}\n{not_previous}\n{where_condition}\n"

/-- The source's loop over `enumerate(blocking_rules)`: `previous_rules`
accumulates the rules already handled, and `matchkey_number` counts up. -/
def blockSqlsAux (sql_select_expr table_name where_condition : String)
    (previous_rules : List String) (rules : List String) (matchkey_number : ℕ) :
    List String :=
  match rules with
  | [] => []
  | rule :: rest =>
      selectSql sql_select_expr (toString matchkey_number) table_name rule
          (_sql_gen_and_not_previous_rules previous_rules) where_condition
        :: blockSqlsAux sql_select_expr table_name where_condition
            (previous_rules ++ [rule]) rest (matchkey_number + 1)

/-- `_sql_gen_block_using_rules`: builds the full blocking statement, a
`union all` of one select per blocking rule.  Propagates the
`UnboundLocalError` of `_sql_gen_where_condition` for unhandled link types. -/
def _sql_gen_block_using_rules (link_type : String) (columns_to_retain : List String)
    (blocking_rules : List String) (unique_id_col : String := "unique_id")
    (source_dataset_col : String := "source_dataset") (table_name : String := "df") :
    Except PyError String := do
  let sql_select_expr := sql_gen_comparison_columns columns_to_retain
  let where_condition ← _sql_gen_where_condition link_type source_dataset_col unique_id_col
  return String.intercalate "union all"
    (blockSqlsAux sql_select_expr table_name where_condition [] blocking_rules 0)

/-! ## Relational semantics of the generated blocking SQL

The generated statement is executed over a table of records.  We model the
table as a list of records, the composite unique id (a SQL string in the
generated code) as a map into a linearly ordered type, and each blocking rule
as a three-valued SQL predicate over an ordered `(l, r)` pair of records.  An
inner join keeps exactly the rows whose `ON` condition evaluates to
`some true`; the where-clause of `link_and_dedupe` keeps the rows with
`cid l < cid r`. -/

/-- The `ON` condition of branch `i`: rule `i` conjoined with the
"not previous rules" clause evaluates to SQL true. -/
def ruleFires {α : Type*} (prev : List (α → α → SqlBool))
    (rule : α → α → SqlBool) (l r : α) : Bool :=
  rule l r == some true && notPreviousDenotation (prev.map (fun p => p l r)) == some true

/-- The inner self-join of one select branch: all pairs from
`ls × rs` passing the boolean join condition and the id-ordering
where-clause. (In the generated SQL both sides are the same table.) -/
def joinRows {α ι : Type*} [LinearOrder ι] (ls rs : List α) (cid : α → ι)
    (cond : α → α → Bool) : List (α × α) :=
  ls.flatMap (fun l => ((rs.filter (fun r => cond l r && decide (cid l < cid r))).map
    (fun r => (l, r))))

/-- Rows of the whole union, tagged with their `match_key`, mirroring the
source loop's accumulation of `previous_rules`. -/
def blockRowsAux {α ι : Type*} [LinearOrder ι] (records : List α) (cid : α → ι)
    (prev : List (α → α → SqlBool)) (rules : List (α → α → SqlBool)) (k : ℕ) :
    List (α × α × ℕ) :=
  match rules with
  | [] => []
  | rule :: rest =>
      ((joinRows records records cid (fun l r => ruleFires prev rule l r)).map
        (fun p => (p.1, p.2, k)))
        ++ blockRowsAux records cid (prev ++ [rule]) rest (k + 1)

/-- The relational denotation of the statement generated by
`_sql_gen_block_using_rules` for link type `link_and_dedupe`(the link type
whose where-clause is the bare ordering constraint). -/
def blockRows {α ι : Type*} [LinearOrder ι] (records : List α) (cid : α → ι)
    (rules : List (α → α → SqlBool)) : List (α × α × ℕ) :=
  blockRowsAux records cid [] rules 0

/-- The index of the first rule whose predicate evaluates to SQL true on the
pair `(l, r)`, if any. -/
def firstTrueIdx {α : Type*} (rules : List (α → α → SqlBool)) (l r : α) : Option ℕ :=
  match rules with
  | [] => none
  | rule :: rest =>
      if rule l r = some true then some 0 else (firstTrueIdx rest l r).map (· + 1)

/-! ## ComparisonLevel (`splink/comparison_level.py`) -/

/-- The raw stored value of `_m_probability` / `_u_probability`: a number, the
`LEVEL_NOT_OBSERVED_TEXT` sentinel string (imported from `splink/constants.py`,
which is not under `src/`; the spec calls it the `NOT_OBSERVED` sentinel and we
model it as its own constructor), or Python `None` (unset). -/
inductive ProbVal where
  | fixed (q : ℚ)
  | notObserved
  | unset
  deriving DecidableEq, Repr

/-- A probability recorded in a level's trained-probability history: a number
or the `NOT_OBSERVED` sentinel. -/
inductive TrainedProb where
  | num (q : ℚ)
  | notObserved
  deriving DecidableEq, Repr

/-- One `{probability, description}` entry of a trained-probability history. -/
structure TrainedEntry where
  probability : TrainedProb
  description : String
  deriving DecidableEq, Repr

/-- The mutable state of a `ComparisonLevel`.

The back-reference `self.comparison` is used in the embedded code paths only
through `self.comparison._num_levels` and through its existence
(`_has_comparison`), so attachment is modelled by `comparison_num_levels`
(`none` models `comparison is None`).

`exact_match_cols` abstracts the Dialect Adapter (`sqlglot`, an external
collaborator per the spec): it is `some cols` exactly when the level's
predicate canonicalizes to a conjunction of clauses of shape `col_l = col_r`,
and then holds the lowercased base column names in conjunct order; it is
`none` otherwise (in particular for the `ELSE` level). -/
structure ComparisonLevel where
  sql_condition : String
  is_null_level : Bool := false
  tf_adjustment_column : Option String := none
  tf_adjustment_weight : ℚ := 1
  tf_minimum_u_value : ℚ := 0
  _m_probability : ProbVal := .unset
  _u_probability : ProbVal := .unset
  comparison_num_levels : Option ℕ := none
  _comparison_vector_value : Option ℤ := none
  trained_m_probabilities : List TrainedEntry := []
  trained_u_probabilities : List TrainedEntry := []
  m_warning_sent : Bool := false
  u_warning_sent : Bool := false
  exact_match_cols : Option (List String) := none
  deriving DecidableEq, Repr

/-- Python `str.lower()` on the (ASCII) column names in play:
`Char.toLower` is ASCII-only, which matches SQL identifier usage here. -/
def pyLower (s : String) : String := ⟨s.data.map Char.toLower⟩

/-- Python `str.upper()` on the (ASCII) SQL text in play. -/
def pyUpper (s : String) : String := ⟨s.data.map Char.toUpper⟩

/-- Python `str.strip()`: drop leading and trailing whitespace. -/
def pyStrip (s : String) : String :=
  ⟨((s.data.dropWhile Char.isWhitespace).reverse.dropWhile Char.isWhitespace).reverse⟩

namespace ComparisonLevel

/-- `_is_else_level`: the predicate is the literal catch-all `ELSE`
(`self.sql_condition.strip().upper() == "ELSE"`). `pyStrip`/`pyUpper` below
model Python `str.strip()`/`str.upper()` on the ASCII SQL text in play. -/
def _is_else_level (lvl : ComparisonLevel) : Bool :=
  pyUpper (pyStrip lvl.sql_condition) == "ELSE"

/-- `_has_comparison`: the level is attached to an owning `Comparison`. -/
def _has_comparison (lvl : ComparisonLevel) : Bool :=
  lvl.comparison_num_levels.isSome

/-- `_has_tf_adjustments`: `self._tf_adjustment_column is not None`. -/
def _has_tf_adjustments (lvl : ComparisonLevel) : Bool :=
  lvl.tf_adjustment_column.isSome

/-- `_tf_adjustment_input_column`, reduced to the column name it carries: the
source builds an `InputColumn` only when `self._tf_adjustment_column` is
truthy (non-`None` and non-empty). -/
def tf_adjustment_input_column (lvl : ComparisonLevel) : Option String :=
  match lvl.tf_adjustment_column with
  | some s => if s = "" then none else some s
  | none => none

/-- `_tf_adjustment_input_column_name`. Modelled from the spec: `InputColumn`
lives in `splink/input_column.py`, which is not under `src/`; per the spec the
tf column is addressed by its (unquoted) name, so `unquote().name` is the
stored column name itself. Returns Python `None` when there is no input
column. -/
def tf_adjustment_input_column_name (lvl : ComparisonLevel) : Option String :=
  tf_adjustment_input_column lvl

end ComparisonLevel

/-- `_default_m_values`: 95% of the m-mass on the last level, the remaining 5%
split evenly across the other `num_levels - 1` levels. (For `num_levels = 1`
Python raises `ZeroDivisionError`; that case is not modelled — rational
division by zero yields 0 here — and no claim touches it.) -/
def _default_m_values (num_levels : ℕ) : List ℚ :=
  let proportion_exact_match : ℚ := 95 / 100
  let remainder := 1 - proportion_exact_match
  let split_remainder := remainder / ((num_levels : ℚ) - 1)
  List.replicate (num_levels - 1) split_remainder ++ [proportion_exact_match]

/-- Modelled from the spec: `interpolate` from `splink/misc.py` is not under
`src/`. Per the spec, default u-values are derived "by placing
log2-Bayes-factor anchors at -5 (weak) through +3 (moderate) evenly across
non-final levels": `num` evenly spaced values from `start` to `stop`
inclusive. -/
def interpolate (start stop : ℚ) (num : ℕ) : List ℚ :=
  (List.range num).map (fun (i : ℕ) => start + (i : ℚ) * (stop - start) / ((num : ℚ) - 1))

/-- Modelled from the spec: `match_weight_to_bayes_factor` from
`splink/misc.py` is not under `src/`. Per the spec, `u = m / 2^weight`, so a
match weight `w` corresponds to a Bayes factor of `2 ^ w` (a real power, since
interpolated weights may be fractional). -/
noncomputable def match_weight_to_bayes_factor (w : ℚ) : ℝ :=
  (2 : ℝ) ^ (w : ℝ)

/-- `_default_u_values`: anchor match weights `-5 .. 3` evenly across the
non-final levels (just `[-5]` when there are two levels) and `10` at the final
level, then `u = m / 2^w` pointwise. -/
noncomputable def _default_u_values (num_levels : ℕ) : List ℝ :=
  let m_vals := _default_m_values num_levels
  let match_weights :=
    (if num_levels = 2 then [(-5 : ℚ)] else interpolate (-5) 3 (num_levels - 1)) ++ [10]
  (m_vals.zip match_weights).map
    (fun p => (p.1 : ℝ) / match_weight_to_bayes_factor p.2)

/-- The default m-value at position `v` among `n` levels: `0.95` at the last
level, `0.05 / (n - 1)` at each other level. -/
def mDefault (n v : ℕ) : ℚ :=
  if v = n - 1 then 95/100 else (5/100) / ((n : ℚ) - 1)

/-- The anchor match weight the defaults place at position `v` among `n`
levels: `+10` at the final level and `-5` through `+3` evenly across the
non-final levels (just `-5` when `n = 2`). -/
def anchorWeight (n v : ℕ) : ℚ :=
  if v = n - 1 then 10
  else if n = 2 then -5
  else -5 + v * 8 / ((n : ℚ) - 2)

/-- Python list indexing `l[i]`: negative indices count from the end; an index
out of range raises `IndexError` (modelled by `none`). -/
def pyGet {β : Type*} (l : List β) (i : ℤ) : Option β :=
  if 0 ≤ i then l[i.toNat]?
  else if 0 ≤ i + l.length then l[(i + l.length).toNat]?
  else none

namespace ComparisonLevel

/-- The `m_probability` getter: `None` for a null level; the `NOT_OBSERVED`
sentinel resolves to `1e-6`; unset resolves to the positional default when the
level is attached to a comparison, and stays `None` otherwise; an explicit
value is returned as-is. -/
noncomputable def m_probability (lvl : ComparisonLevel) : Except PyError (Option ℝ) :=
  if lvl.is_null_level then .ok none
  else
    match lvl._m_probability with
    | .notObserved => .ok (some ((1 : ℝ) / 1000000))
    | .unset =>
        match lvl.comparison_num_levels with
        | none => .ok none
        | some n =>
            match lvl._comparison_vector_value with
            | none => .error .typeError
            | some v =>
                match pyGet (_default_m_values n) v with
                | some q => .ok (some (q : ℝ))
                | none => .error .indexError
    | .fixed q => .ok (some (q : ℝ))

/-- The `u_probability` getter: unlike `m_probability`, the unset branch
dereferences `self.comparison._num_levels` without first checking
`_has_comparison`, so an unattached level raises `AttributeError`. -/
noncomputable def u_probability (lvl : ComparisonLevel) : Except PyError (Option ℝ) :=
  if lvl.is_null_level then .ok none
  else
    match lvl._u_probability with
    | .notObserved => .ok (some ((1 : ℝ) / 1000000))
    | .unset =>
        match lvl.comparison_num_levels with
        | none => .error .attributeError
        | some n =>
            match lvl._comparison_vector_value with
            | none => .error .typeError
            | some v =>
                match pyGet (_default_u_values n) v with
                | some x => .ok (some x)
                | none => .error .indexError
    | .fixed q => .ok (some (q : ℝ))

/-- The `m_probability` setter, returning the updated level together with the
raised error, if any. A Python `raise` propagates before any assignment, so on
error the level is returned unchanged. Setting on a null level raises
`AttributeError`; setting the `NOT_OBSERVED` sentinel first touches
`self.comparison.output_column_name` (raising `AttributeError` when
unattached) and records the one-time warning. -/
def m_probability_set (lvl : ComparisonLevel) (value : ProbVal) :
    ComparisonLevel × Option PyError :=
  if lvl.is_null_level then (lvl, some .attributeError)
  else
    match value with
    | .notObserved =>
        if lvl.comparison_num_levels.isSome then
          ({ lvl with _m_probability := value, m_warning_sent := true }, none)
        else (lvl, some .attributeError)
    | _ => ({ lvl with _m_probability := value }, none)

/-- The `u_probability` setter; see `m_probability_set`. -/
def u_probability_set (lvl : ComparisonLevel) (value : ProbVal) :
    ComparisonLevel × Option PyError :=
  if lvl.is_null_level then (lvl, some .attributeError)
  else
    match value with
    | .notObserved =>
        if lvl.comparison_num_levels.isSome then
          ({ lvl with _u_probability := value, u_warning_sent := true }, none)
        else (lvl, some .attributeError)
    | _ => ({ lvl with _u_probability := value }, none)

/-- `_add_trained_m_probability`: appends to the (append-only) history. -/
def _add_trained_m_probability (lvl : ComparisonLevel) (val : TrainedProb)
    (desc : String := "no description given") : ComparisonLevel :=
  { lvl with trained_m_probabilities := lvl.trained_m_probabilities ++ [⟨val, desc⟩] }

/-- `_add_trained_u_probability`: appends to the (append-only) history. -/
def _add_trained_u_probability (lvl : ComparisonLevel) (val : TrainedProb)
    (desc : String := "no description given") : ComparisonLevel :=
  { lvl with trained_u_probabilities := lvl.trained_u_probabilities ++ [⟨val, desc⟩] }

end ComparisonLevel

/-- The numeric entries of a trained-probability history, in order: the
`isinstance(v, (int, float))` filter of the source. -/
def numericProbabilities (entries : List TrainedEntry) : List ℚ :=
  entries.filterMap (fun e =>
    match e.probability with
    | .num q => some q
    | .notObserved => none)

/-- Insert into a sorted list, keeping it sorted. -/
def insertSorted (x : ℚ) : List ℚ → List ℚ
  | [] => [x]
  | y :: ys => if x ≤ y then x :: y :: ys else y :: insertSorted x ys

/-- The sort inside `statistics.median` (insertion sort; any sort of rationals
produces the same list). -/
def pysort (l : List ℚ) : List ℚ := l.foldr insertSorted []

/-- `statistics.median` (Python standard library): sort the data; the middle
element for odd length, the mean of the two middle elements for even
length. -/
def pymedian (vals : List ℚ) : ℚ :=
  let s := pysort vals
  if s.length % 2 = 1 then s.getD (s.length / 2) 0
  else (s.getD (s.length / 2 - 1) 0 + s.getD (s.length / 2) 0) / 2

namespace ComparisonLevel

/-- `_trained_m_median`: the median of the numeric entries of the trained-m
history, `None` when there are none. -/
def _trained_m_median (lvl : ComparisonLevel) : Option ℚ :=
  let vals := numericProbabilities lvl.trained_m_probabilities
  if vals.length = 0 then none else some (pymedian vals)

/-- `_trained_u_median`: the median of the numeric entries of the trained-u
history, `None` when there are none. -/
def _trained_u_median (lvl : ComparisonLevel) : Option ℚ :=
  let vals := numericProbabilities lvl.trained_u_probabilities
  if vals.length = 0 then none else some (pymedian vals)

end ComparisonLevel

/-- The value `m / u` as a Python float, with `u == 0` mapped to
`math.inf` (`⊤`). -/
noncomputable def bayes_factor_value (m u : ℝ) : WithTop ℝ :=
  if u = 0 then ⊤ else ((m / u : ℝ) : WithTop ℝ)

namespace ComparisonLevel

/-- `_bayes_factor`: `1.0` for a null level regardless of any configured
probabilities; `None` when either getter yields `None` (the `or` in the source
short-circuits, so `u_probability` is not read when `m_probability` is
`None`); `+inf` when `u == 0`; otherwise `m / u`. Getter errors propagate. -/
noncomputable def _bayes_factor (lvl : ComparisonLevel) :
    Except PyError (Option (WithTop ℝ)) :=
  if lvl.is_null_level then .ok (some 1)
  else do
    match ← m_probability lvl with
    | none => return none
    | some m =>
        match ← u_probability lvl with
        | none => return none
        | some u => return some (bayes_factor_value m u)

/-- `_log2_bayes_factor`: `0.0` for a null level; otherwise `math.log2` of the
Bayes factor (`TypeError` on `None`, `+inf` on `+inf`, `ValueError` outside
the domain of `log2`). -/
noncomputable def _log2_bayes_factor (lvl : ComparisonLevel) :
    Except PyError (Option (WithTop ℝ)) :=
  if lvl.is_null_level then .ok (some ((0 : ℝ) : WithTop ℝ))
  else do
    match ← _bayes_factor lvl with
    | none => .error .typeError
    | some bf =>
        if bf = ⊤ then .ok (some ⊤)
        else
          let x := bf.untop' 0
          if 0 < x then .ok (some ((Real.logb 2 x : ℝ) : WithTop ℝ))
          else .error .valueError

/-- The test applied to each sibling level inside the loop of
`_u_probability_corresponding_to_exact_match`: the level canonicalizes to a
pure conjunction of exact matches (`_is_exact_match`), on exactly one base
column (`len(colnames) == 1`), and that column is the lowercased tf-adjustment
column of the adjusted level. -/
def matchesTfExactMatch (tfname : String) (level : ComparisonLevel) : Bool :=
  match level.exact_match_cols with
  | some [c] => c == pyLower tfname
  | _ => false

/-- `_u_probability_corresponding_to_exact_match`: scans the given levels in
order and returns the u-probability of the *first* level that is an exact
match on exactly the tf-adjustment column; raises `ValueError` when the scan
finds none. (When the level has no truthy tf-adjustment column, Python
raises `AttributeError` on `None.lower()`.) -/
noncomputable def _u_probability_corresponding_to_exact_match
    (lvl : ComparisonLevel) (comparison_levels : List ComparisonLevel) :
    Except PyError (Option ℝ) :=
  match tf_adjustment_input_column_name lvl with
  | none => .error .attributeError
  | some tfname =>
      match comparison_levels.find? (matchesTfExactMatch tfname) with
      | some level => u_probability level
      | none => .error .valueError

end ComparisonLevel

/-- The Python f-string rendering of `self._comparison_vector_value`
(`None` prints as `None`). -/
def cvvStr (v : Option ℤ) : String :=
  match v with
  | none => "None"
  | some i => toString i

/-- `gamma_colname_value_is_this_level`: `"{gamma_column_name} = {cvv}"`. -/
def gammaCondStr (gamma_column_name : String) (v : Option ℤ) : String :=
  s!"{gamma_column_name} = {cvvStr v}"

/-- The no-op branch of `_tf_adjustment_sql`: a multiplier of `1.0`. -/
def tfNoopSql (gamma_cond : String) : String :=
  s!"WHEN  {gamma_cond} then cast(1 as float8)"

/-- The fragment generated by `_tf_adjustment_sql`: either the no-op multiplier
(carried as the exact generated string) or the adjusted `CASE` expression,
carried structurally (its interpolated u-probability is a real number). -/
inductive TfAdjSql where
  | noop (sql : String)
  | adjusted (gamma_cond : String) (u_exact : Option ℝ) (tf_weight : ℚ)
      (tf_min_u : ℚ) (tf_name_l tf_name_r : String)

namespace ComparisonLevel

/-- `_tf_adjustment_sql`: generates the term-frequency adjustment branch for
this level. The four no-op cases are, in source order: comparison vector value
`-1`; no tf-adjustment column; zero tf-adjustment weight; the else level.
Otherwise the adjusted `CASE` expression is generated around the u-probability
of the corresponding exact-match level (whose lookup may raise). The tf column
names `tf_<col>_l` / `tf_<col>_r` are modelled from the spec's
`COALESCE(tf_l, tf_r)` contract, `InputColumn` being outside `src/`. -/
noncomputable def _tf_adjustment_sql (lvl : ComparisonLevel)
    (gamma_column_name : String) (comparison_levels : List ComparisonLevel) :
    Except PyError TfAdjSql :=
  if lvl._comparison_vector_value = some (-1) then
    .ok (.noop (tfNoopSql (gammaCondStr gamma_column_name lvl._comparison_vector_value)))
  else if !lvl._has_tf_adjustments then
    .ok (.noop (tfNoopSql (gammaCondStr gamma_column_name lvl._comparison_vector_value)))
  else if lvl.tf_adjustment_weight = 0 then
    .ok (.noop (tfNoopSql (gammaCondStr gamma_column_name lvl._comparison_vector_value)))
  else if lvl._is_else_level then
    .ok (.noop (tfNoopSql (gammaCondStr gamma_column_name lvl._comparison_vector_value)))
  else
    match tf_adjustment_input_column lvl with
    | none => .error .attributeError
    | some col => do
        let u ← _u_probability_corresponding_to_exact_match lvl comparison_levels
        return .adjusted (gammaCondStr gamma_column_name lvl._comparison_vector_value) u
          lvl.tf_adjustment_weight lvl.tf_minimum_u_value s!"tf_{col}_l" s!"tf_{col}_r"

end ComparisonLevel

/-- Denotation of the adjusted `CASE` expression generated by
`_tf_adjustment_sql`, evaluated at the two term frequencies of a pair
(`none` is SQL `NULL`): guarded by `coalesce(tf_l, tf_r) IS NOT NULL`, the
multiplier is `POW(u_exact / divisor, tf_weight)` with the divisor of the
source (`max` of the two coalesces, clamped below by `tf_minimum_u_value` when
that is nonzero), and the `ELSE` branch yields `1.0`. -/
noncomputable def tfMultiplier (u_exact : ℝ) (tf_weight : ℚ) (tf_min_u : ℚ)
    (tf_l tf_r : Option ℝ) : ℝ :=
  match tf_l <|> tf_r with
  | none => 1
  | some _ =>
      let clr := (tf_l <|> tf_r).getD 0
      let crl := (tf_r <|> tf_l).getD 0
      let divisor :=
        if tf_min_u = 0 then (if clr ≥ crl then clr else crl)
        else
          if clr ≥ crl ∧ clr > (tf_min_u : ℝ) then clr
          else if crl > (tf_min_u : ℝ) then crl
          else (tf_min_u : ℝ)
      (u_exact / divisor) ^ (tf_weight : ℝ)

/-! ## Concrete levels used to evaluate the embedded code on explicit inputs -/

/-- A null level (e.g. `surname_l IS NULL OR surname_r IS NULL`). -/
def nullLevel : ComparisonLevel :=
  { sql_condition := "surname_l IS NULL OR surname_r IS NULL", is_null_level := true }

/-- A freshly constructed level not attached to any `Comparison`. -/
def detachedLevel : ComparisonLevel :=
  { sql_condition := "first_name_l = first_name_r" }

/-- An exact-match level on `surname` with an explicit u-probability. -/
def exactLevelA : ComparisonLevel :=
  { sql_condition := "surname_l = surname_r", exact_match_cols := some ["surname"]
    _u_probability := .fixed (3/10) }

/-- A second exact-match level on `surname` with a different u-probability. -/
def exactLevelB : ComparisonLevel :=
  { sql_condition := "lower(surname_l) = lower(surname_r)"
    exact_match_cols := some ["surname"], _u_probability := .fixed (2/5) }

/-- A fuzzy level carrying a term-frequency adjustment on `surname`. -/
def tfLevel : ComparisonLevel :=
  { sql_condition := "levenshtein(surname_l, surname_r) <= 2"
    tf_adjustment_column := some "surname", _comparison_vector_value := some 1 }

/-- The catch-all `ELSE` level. -/
def elseLevel : ComparisonLevel :=
  { sql_condition := "ELSE", _comparison_vector_value := some 0 }

/-- `exactLevelA` after two EM sessions trained its m-probability. -/
def levelTrainedTwo : ComparisonLevel :=
  (exactLevelA._add_trained_m_probability (.num (8/10))
    "em session 1")._add_trained_m_probability (.num (9/10)) "em session 2"

/-- `levelTrainedTwo` after a third EM session contributed `0.95`. -/
def levelTrainedThree : ComparisonLevel :=
  levelTrainedTwo._add_trained_m_probability (.num (95/100)) "em session 3"

/-- A level attached to a three-level comparison at vector value 0, with no
explicit probabilities. -/
def attachedUnsetLevel : ComparisonLevel :=
  { sql_condition := "dob_l = dob_r", comparison_num_levels := some 3
    _comparison_vector_value := some 0, exact_match_cols := some ["dob"] }

/-- A level with both probabilities explicitly set. -/
def fixedLevel : ComparisonLevel :=
  { sql_condition := "city_l = city_r", _m_probability := .fixed (1/2)
    _u_probability := .fixed (1/4) }

/-- A level whose probabilities hold the `NOT_OBSERVED` sentinel. -/
def notObservedLevel : ComparisonLevel :=
  { sql_condition := "postcode_l = postcode_r", _m_probability := .notObserved
    _u_probability := .notObserved, comparison_num_levels := some 2
    _comparison_vector_value := some 1 }

/-- A concrete three-record table for evaluating the blocking semantics. -/
def wRecords : List ℕ := [1, 2, 3]

/-- A concrete blocking-rule predicate: fires exactly on pairs summing to 3. -/
def wRule0 : ℕ → ℕ → SqlBool := fun l r => some (decide (l + r = 3))

/-- A concrete blocking-rule predicate: fires exactly on pairs of odd records. -/
def wRule1 : ℕ → ℕ → SqlBool := fun l r => some (decide (l % 2 = 1 ∧ r % 2 = 1))

end Splink

open Splink

/-! ## Basic facts about the three-valued semantics -/

lemma ifnullFalse_eq (v : SqlBool) : ifnullFalse v = some (v == some true) := by
  cases v with
  | none => rfl
  | some b => cases b <;> rfl

lemma sqlOr_some_some (a b : Bool) : sqlOr (some a) (some b) = some (a || b) := by
  cases a <;> cases b <;> rfl

lemma foldr_sqlOr_ifnull (vals : List SqlBool) :
    vals.foldr (fun v acc => sqlOr (ifnullFalse v) acc) (some false)
      = some (vals.any (fun v => v == some true)) := by
  induction vals with
  | nil => rfl
  | cons v vs ih =>
      rw [List.foldr_cons, ih, ifnullFalse_eq, sqlOr_some_some, List.any_cons]

/-- The "and not previous rules" clause evaluates to SQL true exactly when no
previous rule's predicate evaluates to SQL true. -/
lemma notPreviousDenotation_eq (vals : List SqlBool) :
    notPreviousDenotation vals = some (!vals.any (fun v => v == some true)) := by
  cases vals with
  | nil => rfl
  | cons v vs =>
      rw [show notPreviousDenotation (v :: vs)
          = sqlNot (List.foldr (fun v acc => sqlOr (ifnullFalse v) acc) (some false) (v :: vs))
          from rfl,
        foldr_sqlOr_ifnull]
      rfl

/-! ## C1 -/

/-- C1: the claim says the where-condition generator produces the ordering
clause `composite_id(l) < composite_id(r)` whenever `link_type` is
`dedupe_only`. The code has no `dedupe_only` branch: evaluating
`_sql_gen_where_condition` at `dedupe_only` raises `UnboundLocalError`
(the local `where_condition` was never assigned), although the composite id
expression and the ordering clause are exactly as claimed (as the
`link_and_dedupe` branch shows). -/
theorem C1_dedupe_only_where_condition :
    Splink._sql_gen_where_condition "dedupe_only" "source_dataset" "unique_id"
      = .error .unboundLocalError
    ∧ Splink._sql_gen_composite_unique_id "source_dataset" "unique_id" "l"
      = "concat(l.source_dataset, '-__-',l.unique_id)"
    ∧ Splink._sql_gen_where_condition "link_and_dedupe" "source_dataset" "unique_id"
      = .ok ("where concat(l.source_dataset, '-__-',l.unique_id) < concat(r.source_dataset, '-__-',r.unique_id)") :=
  ⟨rfl, rfl, rfl⟩

/-! ## C3 -/

/-- C3: for a non-empty list of prior blocking rules the generated exclusion
clause is `AND NOT (...)` over the prior rules, each wrapped as
`ifnull((rule), false)` and joined with ` OR `; for an empty list it is the
empty string; and semantically, a pair for which every earlier rule evaluates
to SQL false or SQL null is not excluded (the clause evaluates to true). -/
theorem C3_null_safe_exclusion :
    (∀ rules : List String, rules ≠ [] →
      _sql_gen_and_not_previous_rules rules
        = "AND NOT (" ++ String.intercalate " OR "
            (rules.map (fun r => "ifnull((" ++ r ++ "), false)")) ++ ")")
    ∧ _sql_gen_and_not_previous_rules [] = ""
    ∧ (∀ vals : List SqlBool, (∀ v ∈ vals, v = some false ∨ v = none) →
        notPreviousDenotation vals = some true) := by
  refine ⟨?_, rfl, ?_⟩
  · intro rules h
    have he : rules.isEmpty = false := by
      cases rules with
      | nil => exact absurd rfl h
      | cons a l => rfl
    simp only [_sql_gen_and_not_previous_rules, he]
    rfl
  · intro vals h
    rw [notPreviousDenotation_eq]
    have : vals.any (fun v => v == some true) = false := by
      rw [List.any_eq_false]
      intro v hv
      rcases h v hv with h' | h' <;> subst h' <;> decide
    rw [this]
    rfl

/-- C3 witness: the clause for one prior rule, and the denotation when that
rule evaluates to SQL null. -/
theorem C3_null_safe_exclusion_witness :
    _sql_gen_and_not_previous_rules ["l.x = r.x"]
      = "AND NOT (" ++ String.intercalate " OR "
          ((["l.x = r.x"]).map (fun r => "ifnull((" ++ r ++ "), false)")) ++ ")"
    ∧ notPreviousDenotation [none] = some true :=
  ⟨C3_null_safe_exclusion.1 ["l.x = r.x"] (by decide),
   C3_null_safe_exclusion.2.2 [none] (by decide)⟩

/-! ## C6 -/

/-- C6: assigning either probability on a level with `is_null_level` fails
(the Python raise is `AttributeError`, the fatal error the spec's taxonomy
files under `ConfigurationError`) and the level's stored state is returned
unchanged. -/
theorem C6_null_level_setters_fail :
    ∀ (lvl : ComparisonLevel) (v : ProbVal), lvl.is_null_level = true →
      lvl.m_probability_set v = (lvl, some .attributeError)
      ∧ lvl.u_probability_set v = (lvl, some .attributeError) := by
  intro lvl v h
  constructor <;>
    simp [ComparisonLevel.m_probability_set, ComparisonLevel.u_probability_set, h]

/-- C6 witness: setting 0.5 on a concrete null level. -/
theorem C6_null_level_setters_fail_witness :
    nullLevel.m_probability_set (.fixed (1/2)) = (nullLevel, some .attributeError)
    ∧ nullLevel.u_probability_set (.fixed (1/2)) = (nullLevel, some .attributeError) :=
  C6_null_level_setters_fail nullLevel (.fixed (1/2)) rfl

/-! ## C9 -/

/-- C9: the representative trained m (resp. u) value is the median of the
numeric probabilities of the append-only trained history and `None` when no
numeric entries exist; concretely `[0.8, 0.9]` yields `0.85` and appending
`0.95` shifts the median to `0.9`. -/
theorem C9_trained_value_median :
    (∀ lvl : ComparisonLevel,
      (numericProbabilities lvl.trained_m_probabilities = [] →
        lvl._trained_m_median = none)
      ∧ (numericProbabilities lvl.trained_m_probabilities ≠ [] →
        lvl._trained_m_median
          = some (pymedian (numericProbabilities lvl.trained_m_probabilities)))
      ∧ (numericProbabilities lvl.trained_u_probabilities = [] →
        lvl._trained_u_median = none)
      ∧ (numericProbabilities lvl.trained_u_probabilities ≠ [] →
        lvl._trained_u_median
          = some (pymedian (numericProbabilities lvl.trained_u_probabilities))))
    ∧ levelTrainedTwo._trained_m_median = some (85/100)
    ∧ levelTrainedThree._trained_m_median = some (9/10) := by
  refine ⟨?_,
    by
      have h2 : numericProbabilities levelTrainedTwo.trained_m_probabilities
          = [8/10, 9/10] := rfl
      simp only [ComparisonLevel._trained_m_median, h2]
      norm_num [pymedian, pysort, insertSorted],
    by
      have h3 : numericProbabilities levelTrainedThree.trained_m_probabilities
          = [8/10, 9/10, 95/100] := rfl
      simp only [ComparisonLevel._trained_m_median, h3]
      norm_num [pymedian, pysort, insertSorted]⟩
  intro lvl
  refine ⟨fun h => ?_, fun h => ?_, fun h => ?_, fun h => ?_⟩ <;>
    simp [ComparisonLevel._trained_m_median, ComparisonLevel._trained_u_median,
      List.length_eq_zero, h]

/-- C9 witness: the general clauses applied to concrete levels. -/
theorem C9_trained_value_median_witness :
    detachedLevel._trained_m_median = none
    ∧ levelTrainedTwo._trained_u_median = none
    ∧ levelTrainedTwo._trained_m_median
        = some (pymedian (numericProbabilities levelTrainedTwo.trained_m_probabilities)) :=
  ⟨(C9_trained_value_median.1 detachedLevel).1 (by decide),
   (C9_trained_value_median.1 levelTrainedTwo).2.2.1 (by decide),
   (C9_trained_value_median.1 levelTrainedTwo).2.1 (by decide)⟩

/-! ## C10 -/

/-- C10: on a detached level (no owning comparison) with unset probabilities
and `is_null_level` false, the `m_probability` getter returns `None` while the
`u_probability` getter raises `AttributeError` by dereferencing the absent
comparison — the two getters are not symmetric at this edge case. -/
theorem C10_detached_getter_asymmetry :
    ∀ lvl : ComparisonLevel, lvl.comparison_num_levels = none →
      lvl._m_probability = .unset → lvl._u_probability = .unset →
      lvl.is_null_level = false →
      lvl.m_probability = .ok none ∧ lvl.u_probability = .error .attributeError := by
  intro lvl h1 h2 h3 h4
  constructor
  · simp [ComparisonLevel.m_probability, h1, h2, h4]
  · simp [ComparisonLevel.u_probability, h1, h3, h4]

/-- C10 witness: a freshly constructed, unattached level. -/
theorem C10_detached_getter_asymmetry_witness :
    detachedLevel.m_probability = .ok none
    ∧ detachedLevel.u_probability = .error .attributeError :=
  C10_detached_getter_asymmetry detachedLevel rfl rfl rfl rfl

/-! ## C2 -/

/-- C2 counterexample: the claim says the lookup fails when more than one
sibling level is an exact match on the tf column. Here *two* sibling levels
qualify for the tf column `surname`, yet the lookup succeeds and returns the
u-probability of the first. -/
theorem C2_exact_match_lookup_counterexample :
    ComparisonLevel.matchesTfExactMatch "surname" exactLevelA = true
    ∧ ComparisonLevel.matchesTfExactMatch "surname" exactLevelB = true
    ∧ tfLevel._u_probability_corresponding_to_exact_match [exactLevelA, exactLevelB]
        = .ok (some ((3 : ℝ)/10)) := by
  refine ⟨by decide, by decide, ?_⟩
  have htf : ComparisonLevel.tf_adjustment_input_column_name tfLevel = some "surname" := by
    decide
  have hfind : List.find? (ComparisonLevel.matchesTfExactMatch "surname")
      [exactLevelA, exactLevelB] = some exactLevelA :=
    List.find?_cons_of_pos _ (by decide)
  simp only [ComparisonLevel._u_probability_corresponding_to_exact_match, htf, hfind]
  norm_num [ComparisonLevel.u_probability, exactLevelA]

/-- C2 (amended): when the level has a (truthy) tf-adjustment column, the
lookup raises a fatal error (`ValueError`) exactly when *zero* sibling levels
are an exact match on that column; when at least one exists, it returns the
u-probability of the *first* such level in order (no error on multiple
candidates). -/
theorem C2_exact_match_lookup :
    ∀ (lvl : ComparisonLevel) (tfname : String) (levels : List ComparisonLevel),
      ComparisonLevel.tf_adjustment_input_column_name lvl = some tfname →
      ((∀ l ∈ levels, ComparisonLevel.matchesTfExactMatch tfname l = false) →
        lvl._u_probability_corresponding_to_exact_match levels = .error .valueError)
      ∧ (∀ l, levels.find? (ComparisonLevel.matchesTfExactMatch tfname) = some l →
          lvl._u_probability_corresponding_to_exact_match levels = l.u_probability) := by
  intro lvl tfname levels h
  constructor
  · intro hall
    have hnone : levels.find? (ComparisonLevel.matchesTfExactMatch tfname) = none :=
      List.find?_eq_none.mpr (fun x hx => by simp [hall x hx])
    simp [ComparisonLevel._u_probability_corresponding_to_exact_match, h, hnone]
  · intro l hl
    simp [ComparisonLevel._u_probability_corresponding_to_exact_match, h, hl]

/-- C2 witness: zero candidates raise; with two candidates the first one's
u-probability is returned. -/
theorem C2_exact_match_lookup_witness :
    tfLevel._u_probability_corresponding_to_exact_match [] = .error .valueError
    ∧ tfLevel._u_probability_corresponding_to_exact_match [exactLevelA, exactLevelB]
        = exactLevelA.u_probability :=
  ⟨(C2_exact_match_lookup tfLevel "surname" [] rfl).1 (by simp),
   (C2_exact_match_lookup tfLevel "surname" [exactLevelA, exactLevelB] rfl).2
     exactLevelA (List.find?_cons_of_pos _ (by decide))⟩

/-! ## C5 -/

/-- C5 counterexample: the claim's parenthetical "for fixed m, decreasing u
strictly increases the Bayes factor" fails at `m = 0` (a value the setters
accept): decreasing u from 1/2 to 1/4 leaves the Bayes factor at 0. -/
theorem C5_bayes_factor_counterexample :
    ((1 : ℝ)/4) < ((1 : ℝ)/2)
    ∧ bayes_factor_value 0 (1/2) = bayes_factor_value 0 (1/4)
    ∧ ¬ bayes_factor_value 0 (1/2) < bayes_factor_value 0 (1/4) := by
  refine ⟨by norm_num, by norm_num [bayes_factor_value], by norm_num [bayes_factor_value]⟩

/-- C5 (amended): a null level always has Bayes factor `1.0` and log2-Bayes
factor `0.0` regardless of configured probabilities; otherwise the Bayes
factor of resolved probabilities `m`, `u` is `+inf` when `u = 0` and `m / u`
when `u ≠ 0`, and for fixed `m > 0` decreasing `u` strictly increases it. -/
theorem C5_bayes_factor :
    (∀ lvl : ComparisonLevel, lvl.is_null_level = true →
      lvl._bayes_factor = .ok (some 1)
      ∧ lvl._log2_bayes_factor = .ok (some ((0 : ℝ) : WithTop ℝ)))
    ∧ (∀ (lvl : ComparisonLevel) (m u : ℝ), lvl.is_null_level = false →
        lvl.m_probability = .ok (some m) → lvl.u_probability = .ok (some u) →
        lvl._bayes_factor = .ok (some (bayes_factor_value m u)))
    ∧ (∀ m : ℝ, bayes_factor_value m 0 = ⊤)
    ∧ (∀ m u : ℝ, u ≠ 0 → bayes_factor_value m u = ((m / u : ℝ) : WithTop ℝ))
    ∧ (∀ m u u' : ℝ, 0 < m → 0 ≤ u' → u' < u →
        bayes_factor_value m u < bayes_factor_value m u') := by
  refine ⟨?_, ?_, ?_, ?_, ?_⟩
  · intro lvl h
    constructor <;>
      simp [ComparisonLevel._bayes_factor, ComparisonLevel._log2_bayes_factor, h]
  · intro lvl m u h hm hu
    simp only [ComparisonLevel._bayes_factor, h, hm, hu, Bool.false_eq_true, if_false]
    rfl
  · intro m
    simp [bayes_factor_value]
  · intro m u h
    simp [bayes_factor_value, h]
  · intro m u u' hm hu' h
    rcases eq_or_lt_of_le hu' with h0 | h0
    · have hu : u ≠ 0 := by rw [← h0] at h; exact ne_of_gt h
      rw [bayes_factor_value, bayes_factor_value, ← h0]
      simp [hu]
    · have hune : u ≠ 0 := ne_of_gt (h0.trans h)
      have hu'ne : u' ≠ 0 := ne_of_gt h0
      rw [bayes_factor_value, bayes_factor_value, if_neg hune, if_neg hu'ne,
        WithTop.coe_lt_coe]
      exact div_lt_div_of_pos_left hm h0 h

/-- C5 witness: the general clauses evaluated at concrete levels and
probabilities. -/
theorem C5_bayes_factor_witness :
    nullLevel._bayes_factor = .ok (some 1)
    ∧ fixedLevel._bayes_factor
        = .ok (some (bayes_factor_value (((1:ℚ)/2 : ℚ) : ℝ) (((1:ℚ)/4 : ℚ) : ℝ)))
    ∧ bayes_factor_value 1 0 = ⊤
    ∧ bayes_factor_value (1/2) (1/4) = (((1:ℝ)/2 / ((1:ℝ)/4) : ℝ) : WithTop ℝ)
    ∧ bayes_factor_value (1/2) (1/2) < bayes_factor_value (1/2) (1/4) :=
  ⟨(C5_bayes_factor.1 nullLevel rfl).1,
   C5_bayes_factor.2.1 fixedLevel _ _ rfl rfl rfl,
   C5_bayes_factor.2.2.1 1,
   C5_bayes_factor.2.2.2.1 (1/2) (1/4) (by norm_num),
   C5_bayes_factor.2.2.2.2 (1/2) (1/2) (1/4) (by norm_num) (by norm_num) (by norm_num)⟩

/-! ## C7 -/

/-- C7: the generated term-frequency branch is the no-op multiplier `1.0`
(cast to float) in each of the four cases — vector value `-1`, no tf column,
zero tf weight, or the else level; and when the adjustment applies, its
denotation falls back to `1.0` whenever both term frequencies are SQL null. -/
theorem C7_tf_adjustment_noop :
    (∀ (lvl : ComparisonLevel) (gamma : String) (levels : List ComparisonLevel),
      (lvl._comparison_vector_value = some (-1) ∨ lvl.tf_adjustment_column = none
        ∨ lvl.tf_adjustment_weight = 0 ∨ lvl._is_else_level = true) →
      lvl._tf_adjustment_sql gamma levels
        = .ok (.noop (tfNoopSql (gammaCondStr gamma lvl._comparison_vector_value))))
    ∧ (∀ (u : ℝ) (w mu : ℚ), tfMultiplier u w mu none none = 1) := by
  constructor
  · intro lvl gamma levels h
    simp only [ComparisonLevel._tf_adjustment_sql]
    split_ifs with h1 h2 h3 h4
    any_goals rfl
    exfalso
    rcases h with h | h | h | h
    · exact h1 h
    · exact h2 (by simp [ComparisonLevel._has_tf_adjustments, h])
    · exact h3 h
    · exact h4 h
  · intro u w mu
    rfl

/-- C7 witness: the four no-op cases at concrete levels, and the null-null
fallback at concrete parameters. -/
theorem C7_tf_adjustment_noop_witness :
    elseLevel._tf_adjustment_sql "gamma_surname" []
      = .ok (.noop (tfNoopSql (gammaCondStr "gamma_surname" elseLevel._comparison_vector_value)))
    ∧ detachedLevel._tf_adjustment_sql "gamma_first_name" []
      = .ok (.noop (tfNoopSql (gammaCondStr "gamma_first_name" detachedLevel._comparison_vector_value)))
    ∧ tfMultiplier 1 1 0 none none = 1 :=
  ⟨C7_tf_adjustment_noop.1 elseLevel "gamma_surname" []
      (Or.inr (Or.inr (Or.inr (by decide)))),
   C7_tf_adjustment_noop.1 detachedLevel "gamma_first_name" []
      (Or.inr (Or.inl rfl)),
   C7_tf_adjustment_noop.2 1 1 0⟩

/-! ## C8 -/

lemma pyGet_natCast {β : Type*} (l : List β) (v : ℕ) : pyGet l (v : ℤ) = l[v]? := by
  simp [pyGet]

lemma default_m_get (n v : ℕ) (h2 : 2 ≤ n) (hv : v < n) :
    (_default_m_values n)[v]? = some (mDefault n v) := by
  unfold _default_m_values mDefault
  by_cases hlast : v = n - 1
  · subst hlast
    rw [List.getElem?_append_right (by simp)]
    simp
  · have hv' : v < n - 1 := by omega
    rw [List.getElem?_append_left (by simpa using hv'), List.getElem?_replicate,
      if_pos hv', if_neg hlast]
    norm_num

lemma interpolate_get (start stop : ℚ) (num i : ℕ) (h : i < num) :
    (interpolate start stop num)[i]? = some (start + i * (stop - start) / ((num : ℚ) - 1)) := by
  unfold interpolate
  rw [List.getElem?_map, List.getElem?_range h]
  rfl

lemma getElem?_zipPair {α β : Type*} (l1 : List α) (l2 : List β) (i : ℕ) :
    (l1.zip l2)[i]? = l1[i]?.bind (fun a => l2[i]?.map (fun b => (a, b))) := by
  induction l1 generalizing l2 i with
  | nil => simp
  | cons a l ih =>
      cases l2 with
      | nil => simp
      | cons b l2 =>
          cases i with
          | zero => simp
          | succ i => simpa using ih l2 i

lemma anchor_weights_length (n : ℕ) (_h2 : 2 ≤ n) :
    (if n = 2 then [(-5 : ℚ)] else interpolate (-5) 3 (n - 1)).length = n - 1 := by
  by_cases h : n = 2
  · simp [h]
  · simp [h, interpolate]

lemma anchor_weights_get (n v : ℕ) (h2 : 2 ≤ n) (hv : v < n) :
    ((if n = 2 then [(-5 : ℚ)] else interpolate (-5) 3 (n - 1)) ++ [10])[v]?
      = some (anchorWeight n v) := by
  by_cases hlast : v = n - 1
  · subst hlast
    rw [List.getElem?_append_right (anchor_weights_length n h2).le,
      anchor_weights_length n h2]
    simp [anchorWeight]
  · have hv' : v < n - 1 := by omega
    rw [List.getElem?_append_left (by rw [anchor_weights_length n h2]; exact hv')]
    by_cases h : n = 2
    · have hv0 : v = 0 := by omega
      subst hv0
      simp [h, anchorWeight, hlast]
    · rw [if_neg h, interpolate_get _ _ _ _ hv']
      unfold anchorWeight
      rw [if_neg hlast, if_neg h]
      have hn : ((n - 1 : ℕ) : ℚ) = (n : ℚ) - 1 := by
        have : (1 : ℕ) ≤ n := by omega
        push_cast [this]
        ring
      rw [hn]
      ring_nf

lemma default_u_get (n v : ℕ) (h2 : 2 ≤ n) (hv : v < n) :
    (_default_u_values n)[v]?
      = some ((mDefault n v : ℝ) / match_weight_to_bayes_factor (anchorWeight n v)) := by
  unfold _default_u_values
  rw [List.getElem?_map, getElem?_zipPair, default_m_get n v h2 hv,
    anchor_weights_get n v h2 hv]
  rfl

/-- C8: the probability getters resolve in three tiers — an explicit value is
returned as-is; the `NOT_OBSERVED` sentinel resolves to exactly `1e-6`; an
unset value resolves to the positional default, where the default m-value is
`0.95` at the last of `n` levels and `0.05/(n-1)` elsewhere, and the default
u-value is `m / 2^w` for anchor match weights `w` at `-5` through `+3` evenly
across non-final levels and `+10` at the final level. -/
theorem C8_probability_getter_tiers :
    (∀ (lvl : ComparisonLevel) (q : ℚ), lvl.is_null_level = false →
      (lvl._m_probability = .fixed q → lvl.m_probability = .ok (some (q : ℝ)))
      ∧ (lvl._u_probability = .fixed q → lvl.u_probability = .ok (some (q : ℝ))))
    ∧ (∀ lvl : ComparisonLevel, lvl.is_null_level = false →
      (lvl._m_probability = .notObserved →
        lvl.m_probability = .ok (some ((1 : ℝ)/1000000)))
      ∧ (lvl._u_probability = .notObserved →
        lvl.u_probability = .ok (some ((1 : ℝ)/1000000))))
    ∧ (∀ (lvl : ComparisonLevel) (n v : ℕ), lvl.is_null_level = false →
        lvl.comparison_num_levels = some n →
        lvl._comparison_vector_value = some (v : ℤ) → 2 ≤ n → v < n →
        (lvl._m_probability = .unset →
          lvl.m_probability = .ok (some ((mDefault n v : ℚ) : ℝ)))
        ∧ (lvl._u_probability = .unset →
          lvl.u_probability
            = .ok (some ((mDefault n v : ℝ)
                / match_weight_to_bayes_factor (anchorWeight n v))))) := by
  refine ⟨?_, ?_, ?_⟩
  · intro lvl q h
    constructor <;> intro hp <;>
      simp [ComparisonLevel.m_probability, ComparisonLevel.u_probability, h, hp]
  · intro lvl h
    constructor <;> intro hp <;>
      simp [ComparisonLevel.m_probability, ComparisonLevel.u_probability, h, hp]
  · intro lvl n v h hn hv h2 hvn
    constructor <;> intro hp
    · simp only [ComparisonLevel.m_probability, h, hp, hn, hv, Bool.false_eq_true,
        if_false, pyGet_natCast, default_m_get n v h2 hvn]
    · simp only [ComparisonLevel.u_probability, h, hp, hn, hv, Bool.false_eq_true,
        if_false, pyGet_natCast, default_u_get n v h2 hvn]

/-- C8 witness: all three tiers evaluated at concrete levels (`n = 3`,
position 0 for the defaults). -/
theorem C8_probability_getter_tiers_witness :
    fixedLevel.m_probability = .ok (some (((1 : ℚ)/2 : ℚ) : ℝ))
    ∧ notObservedLevel.m_probability = .ok (some ((1 : ℝ)/1000000))
    ∧ notObservedLevel.u_probability = .ok (some ((1 : ℝ)/1000000))
    ∧ attachedUnsetLevel.m_probability = .ok (some ((mDefault 3 0 : ℚ) : ℝ))
    ∧ attachedUnsetLevel.u_probability
        = .ok (some ((mDefault 3 0 : ℝ) / match_weight_to_bayes_factor (anchorWeight 3 0))) :=
  ⟨(C8_probability_getter_tiers.1 fixedLevel (1/2) rfl).1 rfl,
   (C8_probability_getter_tiers.2.1 notObservedLevel rfl).1 rfl,
   (C8_probability_getter_tiers.2.1 notObservedLevel rfl).2 rfl,
   (C8_probability_getter_tiers.2.2 attachedUnsetLevel 3 0 rfl rfl rfl
      (by norm_num) (by norm_num)).1 rfl,
   (C8_probability_getter_tiers.2.2 attachedUnsetLevel 3 0 rfl rfl rfl
      (by norm_num) (by norm_num)).2 rfl⟩

/-! ## C4: structure of the generated union -/

lemma blockSqlsAux_closed (se tbl wc : String) (rules : List String) :
    ∀ (prev : List String) (k : ℕ),
    blockSqlsAux se tbl wc prev rules k
      = (List.range rules.length).map (fun i =>
          selectSql se (toString (k + i)) tbl (rules.getD i "")
            (_sql_gen_and_not_previous_rules (prev ++ rules.take i)) wc) := by
  induction rules with
  | nil => intro prev k; rfl
  | cons rule rest ih =>
      intro prev k
      simp only [blockSqlsAux, List.length_cons, List.range_succ_eq_map, List.map_cons,
        List.map_map]
      refine congrArg₂ List.cons ?_ ?_
      · rw [Nat.add_zero, List.getD_cons_zero, List.take_zero, List.append_nil]
      · rw [ih (prev ++ [rule]) (k + 1)]
        refine List.map_congr_left ?_
        intro i hi
        simp only [Function.comp_apply, Nat.succ_eq_add_one, List.getD_cons_succ,
          List.take_succ_cons]
        have hk : k + 1 + i = k + (i + 1) := by omega
        rw [hk, List.append_assoc]
        rfl

lemma block_using_rules_closed (cols rules : List String) (uid sd tbl : String) :
    _sql_gen_block_using_rules "link_and_dedupe" cols rules uid sd tbl
      = .ok (String.intercalate "union all"
          ((List.range rules.length).map (fun i =>
            selectSql (sql_gen_comparison_columns cols) (toString i) tbl
              (rules.getD i "")
              (_sql_gen_and_not_previous_rules (rules.take i))
              (orderingWhereClause sd uid)))) := by
  have hwc : _sql_gen_where_condition "link_and_dedupe" sd uid
      = .ok (orderingWhereClause sd uid) := by
    unfold _sql_gen_where_condition
    rw [if_pos rfl]
  unfold _sql_gen_block_using_rules
  rw [hwc]
  show Except.ok (String.intercalate "union all"
      (blockSqlsAux (sql_gen_comparison_columns cols) tbl
        (orderingWhereClause sd uid) [] rules 0)) = _
  rw [blockSqlsAux_closed]
  simp

/-! ## C4: semantics of the generated union -/

lemma ruleFires_iff {α : Type*} (prev : List (α → α → SqlBool))
    (rule : α → α → SqlBool) (l r : α) :
    ruleFires prev rule l r = true
      ↔ (rule l r = some true ∧ ∀ p ∈ prev, p l r ≠ some true) := by
  unfold ruleFires
  rw [notPreviousDenotation_eq]
  simp [List.any_map, Function.comp, List.any_eq_false]

lemma count_pair_map {α : Type*} [DecidableEq α] (xs : List α) (l a b : α) :
    ((xs.map (fun r => (l, r))).count (a, b)) = if l = a then xs.count b else 0 := by
  induction xs with
  | nil => simp
  | cons x xs ih =>
      simp only [List.map_cons, List.count_cons, ih]
      by_cases hl : l = a <;> by_cases hx : x = b <;>
        simp [hl, hx, Prod.ext_iff]

lemma count_filter_if {α : Type*} [DecidableEq α] (l : List α) (q : α → Bool) (x : α) :
    (l.filter q).count x = if q x then l.count x else 0 := by
  by_cases h : q x
  · rw [if_pos h, List.count_filter h]
  · rw [if_neg h, List.count_eq_zero]
    intro hm
    exact h (List.of_mem_filter hm)

lemma count_pair_joinRows {α ι : Type*} [DecidableEq α] [LinearOrder ι]
    (rs : List α) (cid : α → ι) (cond : α → α → Bool) (a b : α) :
    ∀ ls : List α,
    (joinRows ls rs cid cond).count (a, b)
      = ls.count a * (if cond a b && decide (cid a < cid b) then rs.count b else 0) := by
  intro ls
  induction ls with
  | nil => simp [joinRows]
  | cons l ls ih =>
      rw [show joinRows (l :: ls) rs cid cond
          = ((rs.filter (fun r => cond l r && decide (cid l < cid r))).map
              (fun r => (l, r))) ++ joinRows ls rs cid cond from rfl,
        List.count_append, count_pair_map, count_filter_if, ih, List.count_cons]
      by_cases hl : l = a
      · subst hl
        simp only [if_pos rfl, beq_self_eq_true, if_true]
        ring
      · have : (l == a) = false := beq_eq_false_iff_ne.mpr hl
        simp only [if_neg hl, this, Bool.false_eq_true, if_false, Nat.add_zero, Nat.zero_add]

lemma countP_pair_or {α : Type*} [DecidableEq α] (a b : α) (hab : a ≠ b) :
    ∀ l : List (α × α),
    l.countP (fun p => decide ((p.1 = a ∧ p.2 = b) ∨ (p.1 = b ∧ p.2 = a)))
      = l.count (a, b) + l.count (b, a) := by
  intro l
  induction l with
  | nil => rfl
  | cons x l ih =>
      rcases x with ⟨x1, x2⟩
      simp only [List.countP_cons, List.count_cons, ih, beq_iff_eq, decide_eq_true_eq]
      have key : (if (x1 = a ∧ x2 = b) ∨ (x1 = b ∧ x2 = a) then 1 else 0)
          = (if (x1, x2) = (a, b) then 1 else 0)
            + (if (x1, x2) = (b, a) then 1 else 0) := by
        by_cases h1 : x1 = a ∧ x2 = b <;> by_cases h2 : x1 = b ∧ x2 = a <;>
          first
          | exact absurd (h1.1.symm.trans h2.1) hab
          | (simp [Prod.ext_iff, h1, h2]
             try (intro h h'; first | exact hab h | exact hab h'))
      rw [key]
      ring

lemma mem_joinRows {α ι : Type*} [LinearOrder ι] {ls rs : List α} {cid : α → ι}
    {cond : α → α → Bool} {p : α × α} (h : p ∈ joinRows ls rs cid cond) :
    cond p.1 p.2 = true ∧ cid p.1 < cid p.2 := by
  rcases p with ⟨x, y⟩
  simp only [joinRows, List.mem_flatMap, List.mem_map, List.mem_filter] at h
  obtain ⟨l, _, r, ⟨_, hcond⟩, heq⟩ := h
  obtain ⟨rfl, rfl⟩ := Prod.ext_iff.mp heq
  simp only [Bool.and_eq_true, decide_eq_true_eq] at hcond
  exact hcond

lemma firstTrueIdx_isSome_iff {α : Type*} (rules : List (α → α → SqlBool)) (l r : α) :
    (firstTrueIdx rules l r).isSome = true ↔ ∃ q ∈ rules, q l r = some true := by
  induction rules with
  | nil => simp [firstTrueIdx]
  | cons rule rest ih =>
      by_cases h : rule l r = some true
      · simp only [firstTrueIdx, if_pos h, Option.isSome_some, true_iff]
        exact ⟨rule, by simp, h⟩
      · simp only [firstTrueIdx, if_neg h]
        rw [show ((firstTrueIdx rest l r).map (· + 1)).isSome = (firstTrueIdx rest l r).isSome
          from Option.isSome_map, ih]
        constructor
        · rintro ⟨q, hq, hqt⟩
          exact ⟨q, List.mem_cons_of_mem _ hq, hqt⟩
        · rintro ⟨q, hq, hqt⟩
          rcases List.mem_cons.mp hq with rfl | hq'
          · exact absurd hqt h
          · exact ⟨q, hq', hqt⟩

lemma countP_blockRowsAux {α ι : Type*} [DecidableEq α] [LinearOrder ι]
    (records : List α) (cid : α → ι) (a b : α)
    (hnd : (records.map cid).Nodup) (ha : a ∈ records) (hb : b ∈ records)
    (hab : cid a < cid b) :
    ∀ (rest prev : List (α → α → SqlBool)) (k : ℕ),
    ((blockRowsAux records cid prev rest k).countP
        (fun t => decide ((t.1 = a ∧ t.2.1 = b) ∨ (t.1 = b ∧ t.2.1 = a))))
      = if (∀ p ∈ prev, p a b ≠ some true) ∧ (∃ q ∈ rest, q a b = some true)
        then 1 else 0 := by
  have hanodup : records.Nodup := List.Nodup.of_map _ hnd
  have hca : records.count a = 1 := List.count_eq_one_of_mem hanodup ha
  have hcb : records.count b = 1 := List.count_eq_one_of_mem hanodup hb
  have hne : a ≠ b := fun h => absurd hab (by rw [h]; exact lt_irrefl _)
  have hba : decide (cid b < cid a) = false := decide_eq_false (not_lt.mpr hab.le)
  have hord : decide (cid a < cid b) = true := decide_eq_true hab
  intro rest
  induction rest with
  | nil =>
      intro prev k
      simp [blockRowsAux]
  | cons rule rest ih =>
      intro prev k
      have hseg : ((joinRows records records cid (fun l r => ruleFires prev rule l r)).map
            (fun p => (p.1, p.2, k))).countP
              (fun t => decide ((t.1 = a ∧ t.2.1 = b) ∨ (t.1 = b ∧ t.2.1 = a)))
          = if ruleFires prev rule a b then 1 else 0 := by
        rw [List.countP_map,
          show ((fun t : α × α × ℕ => decide ((t.1 = a ∧ t.2.1 = b) ∨ (t.1 = b ∧ t.2.1 = a)))
              ∘ (fun p : α × α => (p.1, p.2, k)))
            = fun p : α × α => decide ((p.1 = a ∧ p.2 = b) ∨ (p.1 = b ∧ p.2 = a)) from rfl,
          countP_pair_or a b hne, count_pair_joinRows, count_pair_joinRows, hba, hord,
          hca, hcb]
        cases hf : ruleFires prev rule a b <;> simp [hf]
      rw [show blockRowsAux records cid prev (rule :: rest) k
          = ((joinRows records records cid (fun l r => ruleFires prev rule l r)).map
              (fun p => (p.1, p.2, k)))
            ++ blockRowsAux records cid (prev ++ [rule]) rest (k + 1) from rfl,
        List.countP_append, hseg, ih (prev ++ [rule]) (k + 1)]
      by_cases hprev : ∀ p ∈ prev, p a b ≠ some true
      · by_cases hrule : rule a b = some true
        · have hf : ruleFires prev rule a b = true :=
            (ruleFires_iff prev rule a b).mpr ⟨hrule, hprev⟩
          have hnotall : ¬ ((∀ p ∈ prev ++ [rule], p a b ≠ some true)
              ∧ (∃ q ∈ rest, q a b = some true)) := by
            rintro ⟨hall, -⟩
            exact hall rule (by simp) hrule
          have hpos : (∀ p ∈ prev, p a b ≠ some true)
              ∧ (∃ q ∈ rule :: rest, q a b = some true) :=
            ⟨hprev, rule, by simp, hrule⟩
          rw [hf, if_pos rfl, if_neg hnotall, if_pos hpos]
        · have hf : ruleFires prev rule a b = false := by
            rw [Bool.eq_false_iff, Ne, ruleFires_iff]
            rintro ⟨h1, -⟩
            exact hrule h1
          have hall : ∀ p ∈ prev ++ [rule], p a b ≠ some true := by
            intro p hp
            rcases List.mem_append.mp hp with h | h
            · exact hprev p h
            · rw [List.mem_singleton.mp h]
              exact hrule
          have hiff : ((∀ p ∈ prev ++ [rule], p a b ≠ some true)
                ∧ (∃ q ∈ rest, q a b = some true))
              ↔ ((∀ p ∈ prev, p a b ≠ some true)
                ∧ (∃ q ∈ rule :: rest, q a b = some true)) := by
            constructor
            · rintro ⟨-, q, hq, hqt⟩
              exact ⟨hprev, q, List.mem_cons_of_mem _ hq, hqt⟩
            · rintro ⟨-, q, hq, hqt⟩
              rcases List.mem_cons.mp hq with rfl | hq'
              · exact absurd hqt hrule
              · exact ⟨hall, q, hq', hqt⟩
          rw [hf]
          simp only [Bool.false_eq_true, if_false, Nat.zero_add]
          rw [if_congr hiff rfl rfl]
      · have hf : ruleFires prev rule a b = false := by
          rw [Bool.eq_false_iff, Ne, ruleFires_iff]
          rintro ⟨-, hall⟩
          exact hprev hall
        have hnot1 : ¬ ((∀ p ∈ prev, p a b ≠ some true)
            ∧ (∃ q ∈ rule :: rest, q a b = some true)) := by
          rintro ⟨h1, -⟩
          exact hprev h1
        have hnot2 : ¬ ((∀ p ∈ prev ++ [rule], p a b ≠ some true)
            ∧ (∃ q ∈ rest, q a b = some true)) := by
          rintro ⟨h1, -⟩
          exact hprev (fun p hp => h1 p (List.mem_append_left _ hp))
        rw [hf]
        simp only [Bool.false_eq_true, if_false, Nat.zero_add]
        rw [if_neg hnot2, if_neg hnot1]

lemma mem_blockRowsAux_key {α ι : Type*} [LinearOrder ι]
    (records : List α) (cid : α → ι) (a b : α) (hab : cid a < cid b) :
    ∀ (rest prev : List (α → α → SqlBool)) (k : ℕ) (x y : α) (k' : ℕ),
    (x, y, k') ∈ blockRowsAux records cid prev rest k →
    ((x = a ∧ y = b) ∨ (x = b ∧ y = a)) →
    x = a ∧ y = b ∧ (∀ p ∈ prev, p a b ≠ some true)
      ∧ ∃ j, firstTrueIdx rest a b = some j ∧ k' = k + j := by
  intro rest
  induction rest with
  | nil =>
      intro prev k x y k' hmem
      simp [blockRowsAux] at hmem
  | cons rule rest ih =>
      intro prev k x y k' hmem hor
      rw [show blockRowsAux records cid prev (rule :: rest) k
          = ((joinRows records records cid (fun l r => ruleFires prev rule l r)).map
              (fun p => (p.1, p.2, k)))
            ++ blockRowsAux records cid (prev ++ [rule]) rest (k + 1) from rfl,
        List.mem_append] at hmem
      rcases hmem with hmem | hmem
      · rcases List.mem_map.mp hmem with ⟨p, hp, heq⟩
        obtain ⟨hx, hy, hk⟩ : p.1 = x ∧ p.2 = y ∧ k = k' := by
          refine ⟨congrArg (fun t => t.1) heq, ?_, ?_⟩
          · exact congrArg (fun t => t.2.1) heq
          · exact congrArg (fun t => t.2.2) heq
        obtain ⟨hcond, hlt⟩ := mem_joinRows hp
        rw [hx, hy] at hcond hlt
        obtain ⟨hxa, hyb⟩ : x = a ∧ y = b := by
          rcases hor with h | ⟨rfl, rfl⟩
          · exact h
          · exact absurd hab (not_lt.mpr hlt.le)
        rw [hxa, hyb] at hcond
        obtain ⟨hrule, hprev⟩ := (ruleFires_iff prev rule a b).mp hcond
        refine ⟨hxa, hyb, hprev, 0, ?_, by omega⟩
        unfold firstTrueIdx
        rw [if_pos hrule]
      · obtain ⟨hx, hy, hall, j, hfi, hk⟩ := ih (prev ++ [rule]) (k + 1) x y k' hmem hor
        have hrule : rule a b ≠ some true := by
          have := hall rule (List.mem_append_right _ (by simp))
          exact this
        refine ⟨hx, hy, fun p hp => hall p (List.mem_append_left _ hp), j + 1, ?_, by omega⟩
        unfold firstTrueIdx
        rw [if_neg hrule, hfi]
        rfl

/-- C4: the blocking statement generated for the link type whose where-clause
is the bare ordering constraint (`link_and_dedupe`) is the `union all` over
`i` of a select that inner-joins the table to itself on rule `i` conjoined
with the ifnull-wrapped negated disjunction of rules `0..i-1`, plus the
ordering constraint, tagging rows with match key `i`; and in the relational
semantics of that statement, every unordered pair of distinct records appears
exactly once when some rule's predicate evaluates to SQL true on it (never
otherwise), carrying the index of the first such rule as its match key. -/
theorem C4_blocking_union_semantics :
    (∀ (cols rules_sql : List String) (uid sd tbl : String),
      _sql_gen_block_using_rules "link_and_dedupe" cols rules_sql uid sd tbl
        = .ok (String.intercalate "union all"
            ((List.range rules_sql.length).map (fun i =>
              selectSql (sql_gen_comparison_columns cols) (toString i) tbl
                (rules_sql.getD i "")
                (_sql_gen_and_not_previous_rules (rules_sql.take i))
                (orderingWhereClause sd uid)))))
    ∧ (∀ (α ι : Type) [DecidableEq α] [LinearOrder ι] (records : List α) (cid : α → ι)
        (rules : List (α → α → SqlBool)) (a b : α),
        (records.map cid).Nodup → a ∈ records → b ∈ records → cid a < cid b →
        ((blockRows records cid rules).countP
            (fun t => decide ((t.1 = a ∧ t.2.1 = b) ∨ (t.1 = b ∧ t.2.1 = a)))
          = if (firstTrueIdx rules a b).isSome then 1 else 0)
        ∧ (∀ (x y : α) (k : ℕ), (x, y, k) ∈ blockRows records cid rules →
            ((x = a ∧ y = b) ∨ (x = b ∧ y = a)) →
            x = a ∧ y = b ∧ firstTrueIdx rules a b = some k)) := by
  constructor
  · exact fun cols rules uid sd tbl => block_using_rules_closed cols rules uid sd tbl
  · intro α ι _ _ records cid rules a b hnd ha hb hab
    constructor
    · rw [show blockRows records cid rules = blockRowsAux records cid [] rules 0 from rfl,
        countP_blockRowsAux records cid a b hnd ha hb hab rules [] 0]
      refine if_congr ?_ rfl rfl
      rw [firstTrueIdx_isSome_iff]
      constructor
      · rintro ⟨-, h⟩
        exact h
      · intro h
        exact ⟨by simp, h⟩
    · intro x y k hmem hor
      obtain ⟨hx, hy, -, j, hfi, hk⟩ :=
        mem_blockRowsAux_key records cid a b hab rules [] 0 x y k hmem hor
      refine ⟨hx, hy, ?_⟩
      rw [hfi]
      congr 1
      omega

/-- C4 witness: the generated statement for one rule, and the semantics over
three concrete records and two concrete rules (pair `(1,2)` is produced by
rule 0; pair `(1,3)` by rule 1, and its row carries match key 1). -/
theorem C4_blocking_union_semantics_witness :
    _sql_gen_block_using_rules "link_and_dedupe" ["surname"] ["l.surname = r.surname"]
        "unique_id" "source_dataset" "df"
      = .ok (String.intercalate "union all"
          ((List.range (["l.surname = r.surname"] : List String).length).map (fun i =>
            selectSql (sql_gen_comparison_columns ["surname"]) (toString i) "df"
              ((["l.surname = r.surname"] : List String).getD i "")
              (_sql_gen_and_not_previous_rules
                ((["l.surname = r.surname"] : List String).take i))
              (orderingWhereClause "source_dataset" "unique_id"))))
    ∧ ((blockRows wRecords (fun n => n) [wRule0, wRule1]).countP
        (fun t => decide ((t.1 = 1 ∧ t.2.1 = 2) ∨ (t.1 = 2 ∧ t.2.1 = 1)))
      = if (firstTrueIdx [wRule0, wRule1] 1 2).isSome then 1 else 0)
    ∧ firstTrueIdx [wRule0, wRule1] 1 3 = some 1 :=
  ⟨C4_blocking_union_semantics.1 ["surname"] ["l.surname = r.surname"]
      "unique_id" "source_dataset" "df",
   (C4_blocking_union_semantics.2 ℕ ℕ wRecords (fun n => n) [wRule0, wRule1] 1 2
      (by decide) (by decide) (by decide) (by decide)).1,
   ((C4_blocking_union_semantics.2 ℕ ℕ wRecords (fun n => n) [wRule0, wRule1] 1 3
      (by decide) (by decide) (by decide) (by decide)).2 1 3 1
      (by decide) (by decide)).2.2⟩
